import Mathlib

/-!
Shallow embedding of the istatp events platform core: the entity model
(src/src/models), the audit diff loop and tag replacement of the event
update handlers (src/src/routers/event_route.py and
src/src/routers/frontend_route.py), the listing filter resolvers, and the
access-control gates (src/src/core/auth.py and the cookie helpers in
frontend_route.py).  Database rows are Lean lists, Python values are a
small inductive universe, handlers are Except-valued functions where an
error models an aborted (rolled back) transaction.
-/

/-- Universe of Python runtime values appearing in event columns and update
payloads.  Decimal and datetime values are carried abstractly: vDec holds
the string produced by str(Decimal), vTime holds an abstract clock reading
whose str form is injective, which is all the diff logic observes. -/
inductive PyVal where
  | vNone
  | vBool (b : Bool)
  | vInt (n : Int)
  | vStr (s : String)
  | vDec (rep : String)
  | vTime (t : Nat)
deriving DecidableEq, Repr

/-- Python str() on the modelled values: str(None) is the string None,
str(True)/str(False) are capitalised, numbers print in decimal. -/
def pyStr : PyVal → String
  | .vNone => "None"
  | .vBool true => "True"
  | .vBool false => "False"
  | .vInt n => toString n
  | .vStr s => s
  | .vDec r => r
  | .vTime t => "datetime(" ++ toString t ++ ")"

/-- Python equality of a value against a string literal: only a str can
compare equal to a str, so True == the string true is False in Python. -/
def pyEqStr : PyVal → String → Bool
  | .vStr t, s => t == s
  | _, _ => false

/-- Errors a handler can surface.  http401 and http403 are the
authentication and authorization failures raised by the gates; the
integrity errors model constraint violations detected when the
transaction commits; attributeError and valueError model uncaught Python
exceptions escaping a handler. -/
inductive PyErr where
  | http401
  | http403
  | http404
  | referentialIntegrityError
  | duplicateKeyError
  | attributeError
  | valueError
deriving DecidableEq, Repr

instance {ε α : Type} [DecidableEq ε] [DecidableEq α] : DecidableEq (Except ε α) := fun a b =>
  match a, b with
  | .ok x, .ok y =>
    if h : x = y then .isTrue (by rw [h]) else .isFalse (by intro hh; cases hh; exact h rfl)
  | .error x, .error y =>
    if h : x = y then .isTrue (by rw [h]) else .isFalse (by intro hh; cases hh; exact h rfl)
  | .ok _, .error _ => .isFalse (by intro hh; cases hh)
  | .error _, .ok _ => .isFalse (by intro hh; cases hh)

/-- Whitespace as Python strip removes it. -/
def isPySpace (c : Char) : Bool :=
  c == ' ' || c == '\t' || c == '\n' || c == '\r'

/-- Drop leading whitespace from a character list. -/
def dropSpaces : List Char → List Char
  | [] => []
  | c :: r => if isPySpace c then dropSpaces r else c :: r

/-- Python strip on a character list. -/
def trimChars (l : List Char) : List Char :=
  ((dropSpaces (dropSpaces l).reverse)).reverse

/-- The numeric value of a decimal digit character. -/
def charDigit? (c : Char) : Option Nat :=
  if c.isDigit then some (c.toNat - 48) else none

/-- Accumulate decimal digits, none on a non-digit. -/
def natOfDigitsAux : Option Nat → List Char → Option Nat
  | acc, [] => acc
  | acc, c :: r =>
    match acc, charDigit? c with
    | some a, some d => natOfDigitsAux (some (a * 10 + d)) r
    | _, _ => none

/-- A nonempty all-digit character list as a number. -/
def natOfDigits : List Char → Option Nat
  | [] => none
  | c :: r => natOfDigitsAux (some 0) (c :: r)

/-- An optionally signed decimal number, as Python int() accepts after
stripping whitespace. -/
def intOfChars (l : List Char) : Option Int :=
  match trimChars l with
  | '-' :: rest => (natOfDigits rest).map (fun n => -(n : Int))
  | '+' :: rest => (natOfDigits rest).map (fun n => (n : Int))
  | l2 => (natOfDigits l2).map (fun n => (n : Int))

/-- Python int(s) on a string: strips whitespace, parses an optionally
signed decimal number, raises ValueError otherwise. -/
def pyInt (s : String) : Except PyErr Int :=
  match intOfChars s.data with
  | some n => .ok n
  | none => .error .valueError

/-- Split a character list on commas. -/
def splitOnComma : List Char → List (List Char)
  | [] => [[]]
  | c :: r =>
    if c == ',' then [] :: splitOnComma r
    else
      match splitOnComma r with
      | g :: gs => (c :: g) :: gs
      | [] => [[c]]

/-- Tag-id parsing in create_event (event_route.py line 190): split on
commas, keep entries whose stripped form isdigit, int() each; malformed
entries are silently dropped. -/
def parseTagIdsCsv (s : String) : List Int :=
  (splitOnComma s.data).filterMap fun t =>
    let u := trimChars t
    if u ≠ [] ∧ u.all Char.isDigit then (natOfDigits u).map Int.ofNat else none

/-- An events row: its primary key plus the mapped columns as a Python
attribute map (getattr and setattr operate on it).  Columns that were
never assigned are simply absent; getattr with a None default then yields
vNone, matching a fresh ORM instance. -/
structure EventRec where
  id : Int
  attrs : List (String × PyVal)
deriving DecidableEq, Repr

/-- An event_tags row (src/src/models/tag.py): composite key. -/
structure EventTagRec where
  event_id : Int
  tag_id : Int
deriving DecidableEq, Repr

/-- An event_audit_log row (src/src/models/audit_log.py), minus the
server-assigned id and change_date which no claim observes. -/
structure AuditRec where
  event_id : Int
  changed_by : Int
  changed_column : String
  old_value : String
  new_value : String
deriving DecidableEq, Repr

/-- A users row, reduced to what the access gates read. -/
structure UserRec where
  id : Int
  role : String
deriving DecidableEq, Repr

/-- The durable store.  tags lists the ids of existing Tag rows (entry
existence is all the foreign-key check on event_tags.tag_id reads).
Cities, countries, organizers and bookmarks are not modelled: no claim
under study touches their constraints. -/
structure DB where
  users : List UserRec
  tags : List Int
  events : List EventRec
  event_tags : List EventTagRec
  audit : List AuditRec
deriving DecidableEq, Repr

/-- getattr(event, field, None). -/
def getattrD (e : EventRec) (f : String) : PyVal :=
  match e.attrs.find? (fun kv => kv.1 == f) with
  | some kv => kv.2
  | none => .vNone

/-- Replace the entry for a key in an attribute map, appending when the
key is new. -/
def setEntry : List (String × PyVal) → String → PyVal → List (String × PyVal)
  | [], f, v => [(f, v)]
  | kv :: rest, f, v =>
    if kv.1 == f then (f, v) :: rest else kv :: setEntry rest f v

/-- setattr(event, field, value). -/
def setattrF (e : EventRec) (f : String) (v : PyVal) : EventRec :=
  { e with attrs := setEntry e.attrs f v }

/-- Outcome of decoding the Authorization header on the API surface:
absent, failing signature or expiry validation, or a decoded claim set
carrying the sub and role claims. -/
inductive BearerAuth where
  | noToken
  | invalidToken
  | token (sub : String) (role : String)
deriving DecidableEq, Repr

/-- Outcome of decoding the access_token cookie on the browser surface.
A decoded cookie may lack the sub or role claim, hence the options. -/
inductive CookieAuth where
  | noCookie
  | invalidCookie
  | cookie (sub : Option String) (role : Option String)
deriving DecidableEq, Repr

/-- int(sub) followed by the user lookup, merged: none when the sub claim
is not numeric or no user row has that id. -/
def lookupUserBySub (db : DB) (sub : String) : Option UserRec :=
  match pyInt sub with
  | .ok uid => db.users.find? (fun u => u.id == uid)
  | .error _ => none

/-- get_current_user (src/src/core/auth.py lines 37 to 55): missing or
invalid token, non-numeric sub, and missing user row all raise the 401
credentials exception; the role claim of the token is never read. -/
def get_current_user (db : DB) : BearerAuth → Except PyErr UserRec
  | .noToken => .error .http401
  | .invalidToken => .error .http401
  | .token sub _role =>
    match lookupUserBySub db sub with
    | none => .error .http401
    | some u => .ok u

/-- require_admin (src/src/core/auth.py lines 72 to 75): the role column
of the fetched user row decides, raising 403 otherwise. -/
def require_admin (db : DB) (a : BearerAuth) : Except PyErr UserRec :=
  match get_current_user db a with
  | .error e => .error e
  | .ok u => if u.role == "admin" then .ok u else .error .http403

/-- get_current_user_cookie (frontend_route.py lines 92 to 112):
_get_user_from_cookie returns the pair of int(sub) and the role claim or
None on any decode failure; the caller then discards the role claim and
fetches the user row by id. -/
def get_current_user_cookie (db : DB) : CookieAuth → Option UserRec
  | .noCookie => none
  | .invalidCookie => none
  | .cookie none _ => none
  | .cookie (some sub) _role => lookupUserBySub db sub

/-- _require_admin (frontend_route.py lines 127 to 129) composed over the
cookie user: 403 unless a user row was found and its role column is
admin. -/
def cookie_require_admin (db : DB) (c : CookieAuth) : Except PyErr UserRec :=
  match get_current_user_cookie db c with
  | some u => if u.role == "admin" then .ok u else .error .http403
  | none => .error .http403

/-- Declaration order of the EventUpdate schema fields
(src/src/schemas/event_schema.py lines 27 to 38), tag_ids excluded: the
order model_dump iterates. -/
def eventUpdateFields : List String :=
  ["title", "description", "city_id", "website_url", "price", "date_start",
   "date_end", "registration_deadline", "location_address", "is_online"]

/-- An EventUpdate payload: the scalar fields explicitly supplied by the
request in the order the request supplied them, plus the tag_ids field
(none when omitted), kept apart because the handler excludes it from the
diff via model_dump exclude. -/
structure EventUpdate where
  supplied : List (String × PyVal)
  tag_ids : Option (List Int)
deriving DecidableEq, Repr

/-- payload.model_dump with exclude_unset and tag_ids excluded: pydantic
iterates the schema fields in declaration order and keeps those the
request set, so the supply order of the request is forgotten here. -/
def model_dump (p : EventUpdate) : List (String × PyVal) :=
  eventUpdateFields.filterMap fun f =>
    match p.supplied.find? (fun kv => kv.1 == f) with
    | some kv => some (f, kv.2)
    | none => none

/-- The audit diff loop shared by update_event (event_route.py lines 237
to 247) and do_admin_event_edit (frontend_route.py lines 592 to 599): for
each pending field read the current attribute, append an audit row when
the str forms differ, then setattr unconditionally and continue on the
mutated object. -/
def diffApply (eid adminId : Int) : EventRec → List (String × PyVal) → EventRec × List AuditRec
  | ev, [] => (ev, [])
  | ev, (f, v) :: rest =>
    let old := getattrD ev f
    let next := diffApply eid adminId (setattrF ev f v) rest
    if pyStr old ≠ pyStr v then
      (next.1, ⟨eid, adminId, f, pyStr old, pyStr v⟩ :: next.2)
    else next

/-- Tag replacement (event_route.py lines 249 to 254, frontend_route.py
lines 617 to 619) together with the constraint checks the database runs
when the surrounding transaction commits: delete every event_tags row of
the event, insert one row per supplied id; a nonexistent tag id violates
the foreign key, a repeated id violates the composite primary key, and
either failure aborts the whole transaction. -/
def replaceEventTags (db : DB) (eid : Int) (l : List Int) : Except PyErr (List EventTagRec) :=
  let remaining := db.event_tags.filter (fun et => !(et.event_id == eid))
  if l.all (fun tid => db.tags.contains tid) then
    if l.Nodup then .ok (remaining ++ l.map (fun tid => ⟨eid, tid⟩))
    else .error .duplicateKeyError
  else .error .referentialIntegrityError

/-- Write back a mutated event row over its old row. -/
def replaceEvent (events : List EventRec) (ev : EventRec) : List EventRec :=
  events.map (fun e => if e.id == ev.id then ev else e)

/-- The tag branch of update_event (event_route.py lines 249 to 254): the
association set is only touched when tag_ids was explicitly supplied in
the payload, an omitted field leaves the rows as they are. -/
def updateTagsRes (db : DB) (eid : Int) (payload : EventUpdate) :
    Except PyErr (List EventTagRec) :=
  match payload.tag_ids with
  | none => .ok db.event_tags
  | some l => replaceEventTags db eid l

/-- update_event handler body (event_route.py lines 218 to 266), given the
already-authorized admin id: 404 when the event is missing, diff and
apply the explicitly supplied scalar fields, replace the tag set only
when tag_ids was explicitly supplied, stamp updated_at, commit.  An error
result models the rolled-back transaction. -/
def update_event (db : DB) (event_id : Int) (payload : EventUpdate)
    (adminId : Int) (now : Nat) : Except PyErr DB :=
  match db.events.find? (fun e => e.id == event_id) with
  | none => .error .http404
  | some event =>
    match updateTagsRes db event_id payload with
    | .error e => .error e
    | .ok newTags =>
      .ok { db with
            events := replaceEvent db.events
              (setattrF (diffApply event_id adminId event (model_dump payload)).1
                "updated_at" (.vTime now)),
            event_tags := newTags,
            audit := db.audit ++ (diffApply event_id adminId event (model_dump payload)).2 }

/-- PATCH /api/v1/event/{id}: the require_admin dependency runs before
the handler body. -/
def update_event_endpoint (db : DB) (auth : BearerAuth) (event_id : Int)
    (payload : EventUpdate) (now : Nat) : Except PyErr DB :=
  match require_admin db auth with
  | .error e => .error e
  | .ok admin => update_event db event_id payload admin.id now

/-- Fresh primary key for an inserted events row: strictly above every
existing id, monotonically assigned. -/
def nextId (events : List EventRec) : Int :=
  (events.map (fun e => e.id)).foldl max 0 + 1

/-- Optional string column value. -/
def optStrVal : Option String → PyVal
  | none => .vNone
  | some s => .vStr s

/-- Optional timestamp column value. -/
def optTimeVal : Option Nat → PyVal
  | none => .vNone
  | some t => .vTime t

/-- Optional integer column value. -/
def optIntVal : Option Int → PyVal
  | none => .vNone
  | some n => .vInt n

/-- The form fields of POST /api/v1/event (event_route.py lines 131 to
147).  tag_ids is the optional comma-separated string; the image upload
is outside the modelled core. -/
structure EventCreateForm where
  title : String
  organizer_id : Int
  date_start : Nat
  price : String
  city_id : Option Int
  description : Option String
  website_url : Option String
  date_end : Option Nat
  registration_deadline : Option Nat
  location_address : Option String
  is_online : Bool
  tag_ids : Option String
deriving DecidableEq, Repr

/-- The column assignments the create_event handler makes
(event_route.py lines 149 to 161): updated_at is never touched, and
created_at is server-assigned at insert. -/
def createAttrs (form : EventCreateForm) (now : Nat) : List (String × PyVal) :=
  [("title", .vStr form.title),
   ("organizer_id", .vInt form.organizer_id),
   ("date_start", .vTime form.date_start),
   ("price", .vDec form.price),
   ("city_id", optIntVal form.city_id),
   ("description", optStrVal form.description),
   ("website_url", optStrVal form.website_url),
   ("date_end", optTimeVal form.date_end),
   ("registration_deadline", optTimeVal form.registration_deadline),
   ("location_address", optStrVal form.location_address),
   ("is_online", .vBool form.is_online),
   ("created_at", .vTime now)]

/-- The tag ids inserted by create_event: the tag_ids string is parsed
only when truthy (present and nonempty). -/
def createParsedTags (form : EventCreateForm) : List Int :=
  match form.tag_ids with
  | none => []
  | some s => if s = "" then [] else parseTagIdsCsv s

/-- create_event handler body (event_route.py lines 149 to 215), given an
authorized admin: build the row, parse the comma-separated tag ids when
the string is truthy (malformed entries silently dropped), insert the
association rows, commit; constraint failures abort the transaction. -/
def create_event (db : DB) (form : EventCreateForm) (now : Nat) :
    Except PyErr (DB × Int) :=
  if (createParsedTags form).all (fun tid => db.tags.contains tid) then
    if (createParsedTags form).Nodup then
      .ok ({ db with
             events := db.events ++ [{ id := nextId db.events, attrs := createAttrs form now }],
             event_tags := db.event_tags
               ++ (createParsedTags form).map (fun tid => ⟨nextId db.events, tid⟩) },
           nextId db.events)
    else .error .duplicateKeyError
  else .error .referentialIntegrityError

/-- POST /api/v1/event with its require_admin dependency. -/
def create_event_endpoint (db : DB) (auth : BearerAuth) (form : EventCreateForm)
    (now : Nat) : Except PyErr (DB × Int) :=
  match require_admin db auth with
  | .error e => .error e
  | .ok _admin => create_event db form now

/-- delete_event handler body (event_route.py lines 269 to 288): 404 when
missing, otherwise the row goes away and its event_tags and audit
children cascade. -/
def delete_event (db : DB) (event_id : Int) : Except PyErr DB :=
  match db.events.find? (fun e => e.id == event_id) with
  | none => .error .http404
  | some _ =>
    .ok { db with
          events := db.events.filter (fun e => !(e.id == event_id)),
          event_tags := db.event_tags.filter (fun et => !(et.event_id == event_id)),
          audit := db.audit.filter (fun a => !(a.event_id == event_id)) }

/-- DELETE /api/v1/event/{id} with its require_admin dependency. -/
def delete_event_endpoint (db : DB) (auth : BearerAuth) (event_id : Int) :
    Except PyErr DB :=
  match require_admin db auth with
  | .error e => .error e
  | .ok _admin => delete_event db event_id

/-- Commit-or-rollback view of a handler outcome: an error leaves the
store at its pre-attempt state. -/
def runTx (db : DB) : Except PyErr DB → DB
  | .ok db2 => db2
  | .error _ => db

/-- Commit-or-rollback view for handlers that also return a fresh id. -/
def runTxPair (db : DB) : Except PyErr (DB × Int) → DB
  | .ok r => r.1
  | .error _ => db

/-- Lowercase a string, character by character. -/
def strLower (s : String) : String := String.map Char.toLower s

/-- Substring test on the character lists. -/
def strContainsSub (hay pat : String) : Bool :=
  let h := hay.toList
  (List.range (h.length + 1)).any (fun i => pat.toList.isPrefixOf (h.drop i))

/-- SQL ilike with wildcards on both sides: case-insensitive substring. -/
def ilikeContains (hay pat : String) : Bool :=
  strContainsSub (strLower hay) (strLower pat)

/-- A column read as a non-null string, none when NULL or another type:
SQL comparisons and ilike on a NULL column match nothing. -/
def strAttr (e : EventRec) (f : String) : Option String :=
  match getattrD e f with
  | .vStr s => some s
  | _ => none

/-- A column read as a non-null integer. -/
def intAttr (e : EventRec) (f : String) : Option Int :=
  match getattrD e f with
  | .vInt n => some n
  | _ => none

/-- Event.title ilike the pattern OR Event.description ilike it. -/
def searchMatch (e : EventRec) (pat : String) : Bool :=
  ((strAttr e "title").map (fun t => ilikeContains t pat)).getD false
   || ((strAttr e "description").map (fun d => ilikeContains d pat)).getD false

/-- The search clause is only added when the search parameter is truthy:
absent or the empty string mean no clause. -/
def searchCond (search : Option String) (e : EventRec) : Bool :=
  match search with
  | none => true
  | some s => if s = "" then true else searchMatch e s

/-- Event.is_online == b. -/
def onlineMatch (e : EventRec) (b : Bool) : Bool :=
  match getattrD e "is_online" with
  | .vBool x => x == b
  | _ => false

/-- Join against event_tags restricted to one tag id: the event matches
when it owns an association row with that tag. -/
def tagMatch (db : DB) (e : EventRec) (t : Int) : Bool :=
  db.event_tags.any (fun et => et.event_id == e.id && et.tag_id == t)

/-- The line computing each id filter in list_events (event_route.py
lines 86 to 88) for a parameter the framework already parsed as an
integer: the Python expression first tests truthiness of the value (None
and 0 are falsy and select no filter) and then calls strip() on it, which
on an int raises AttributeError. -/
def parseIntIdParam : Option Int → Except PyErr (Option Int)
  | none => .ok none
  | some n => if n = 0 then .ok none else .error .attributeError

/-- The same line for a parameter the framework left as a string: absent,
empty or blank strings select no filter, anything else goes through
int(), which raises ValueError on a non-numeric string. -/
def parseStrIdParam : Option String → Except PyErr (Option Int)
  | none => .ok none
  | some s =>
    if s = "" then .ok none
    else if trimChars s.data = [] then .ok none
    else (pyInt s).map some

/-- Bool to PyVal for the framework-parsed online parameter. -/
def optBoolVal : Option Bool → PyVal
  | none => .vNone
  | some b => .vBool b

/-- The online filter of list_events (event_route.py line 89): the
parameter was parsed by the framework as Optional bool, and the handler
compares that value against the string literals true and false with
Python equality. -/
def parseOnlineParam (x : Option Bool) : Option Bool :=
  if pyEqStr (optBoolVal x) "true" then some true
  else if pyEqStr (optBoolVal x) "false" then some false
  else none

/-- The conjunction of the list_events where clauses given the computed
filter values: id filters added under an is-not-None test. -/
def listEventsPred (db : DB) (search : Option String) (cid oid : Option Int)
    (onl : Option Bool) (tid : Option Int) (e : EventRec) : Bool :=
  searchCond search e
   && (match cid with | none => true | some n => intAttr e "city_id" == some n)
   && (match oid with | none => true | some n => intAttr e "organizer_id" == some n)
   && (match onl with | none => true | some b => onlineMatch e b)
   && (match tid with | none => true | some t => tagMatch db e t)

/-- GET /api/v1/events (event_route.py lines 76 to 110): the framework
delivers city_id as Optional int and is_online as Optional bool per the
annotations; the handler then runs the string-oriented parsing lines in
source order and filters.  No ordering clause is applied. -/
def list_events (db : DB) (search : Option String) (city_id : Option Int)
    (organizer_id : Option String) (is_online : Option Bool)
    (tag_id : Option String) : Except PyErr (List EventRec) :=
  match parseIntIdParam city_id with
  | .error e => .error e
  | .ok cid =>
  match parseStrIdParam organizer_id with
  | .error e => .error e
  | .ok oid =>
  match parseStrIdParam tag_id with
  | .error e => .error e
  | .ok tid =>
    let onl := parseOnlineParam is_online
    .ok (db.events.filter (listEventsPred db search cid oid onl tid))

/-- Insert into a list ordered by a Boolean comparison. -/
def insertLe (le : α → α → Bool) (x : α) : List α → List α
  | [] => [x]
  | y :: ys => if le x y then x :: y :: ys else y :: insertLe le x ys

/-- Insertion sort: the model of an SQL order_by clause, producing a
sorted permutation of the rows. -/
def sortByLe (le : α → α → Bool) : List α → List α
  | [] => []
  | x :: xs => insertLe le x (sortByLe le xs)

/-- Sort key for order_by Event.date_start ascending. -/
def dateStartKey (e : EventRec) : Nat :=
  match getattrD e "date_start" with
  | .vTime t => t
  | _ => 0

/-- Ascending start-timestamp comparison. -/
def dateStartLe (a b : EventRec) : Bool := dateStartKey a ≤ dateStartKey b

/-- Descending identifier comparison, order_by Event.id desc. -/
def idDescLe (a b : EventRec) : Bool := b.id ≤ a.id

/-- The conjunction of the page_index where clauses (frontend_route.py
lines 174 to 185): here is_online stayed a string and is compared to the
literals, and the id filters sit under a truthiness test, so a parsed 0
selects no filter. -/
def pageIndexPred (db : DB) (search : Option String) (is_online : Option String)
    (oid tid : Option Int) (e : EventRec) : Bool :=
  searchCond search e
   && (if is_online == some "true" then onlineMatch e true
       else if is_online == some "false" then onlineMatch e false
       else true)
   && (match oid with
       | none => true
       | some n => if n = 0 then true else intAttr e "organizer_id" == some n)
   && (match tid with
       | none => true
       | some t => if t = 0 then true else tagMatch db e t)

/-- GET / (frontend_route.py lines 159 to 208): filter, then order by
Event.date_start ascending. -/
def page_index (db : DB) (search : Option String) (is_online : Option String)
    (organizer_id : Option String) (tag_id : Option String) :
    Except PyErr (List EventRec) :=
  match parseStrIdParam organizer_id with
  | .error e => .error e
  | .ok oid =>
  match parseStrIdParam tag_id with
  | .error e => .error e
  | .ok tid =>
    .ok (sortByLe dateStartLe (db.events.filter (pageIndexPred db search is_online oid tid)))

/-- GET /admin/events (frontend_route.py lines 421 to 438): admin gate,
then every event ordered by Event.id descending. -/
def page_admin_events (db : DB) (c : CookieAuth) : Except PyErr (List EventRec) :=
  match cookie_require_admin db c with
  | .error e => .error e
  | .ok _ => .ok (sortByLe idDescLe db.events)

/-- The form fields shared by the admin event create and edit pages
(frontend_route.py lines 457 to 475 and 553 to 572): is_online arrives as
an optional string compared against the literal true, tag_ids as a list
of ints defaulting to the empty list. -/
structure EventEditForm where
  title : String
  organizer_id : Int
  date_start : Nat
  date_end : Option Nat
  registration_deadline : Option Nat
  price : String
  city_id : Option Int
  location_address : Option String
  website_url : Option String
  description : Option String
  is_online : Option String
  tag_ids : List Int
deriving DecidableEq, Repr

/-- city_id or None in the form handlers: a submitted 0 is falsy and
becomes None. -/
def cityOrNone : Option Int → PyVal
  | none => .vNone
  | some n => if n = 0 then .vNone else .vInt n

/-- The updates dict of do_admin_event_edit (frontend_route.py lines 583
to 591), in its literal key order; also the constructor arguments of
do_admin_event_create. -/
def editUpdates (form : EventEditForm) : List (String × PyVal) :=
  [("title", .vStr form.title),
   ("organizer_id", .vInt form.organizer_id),
   ("date_start", .vTime form.date_start),
   ("date_end", optTimeVal form.date_end),
   ("registration_deadline", optTimeVal form.registration_deadline),
   ("price", .vDec form.price),
   ("city_id", cityOrNone form.city_id),
   ("location_address", optStrVal form.location_address),
   ("website_url", optStrVal form.website_url),
   ("description", optStrVal form.description),
   ("is_online", .vBool (form.is_online == some "true"))]

/-- POST /admin/events/{id}/edit (frontend_route.py lines 553 to 624):
cookie admin gate, 404 on a missing event, the same diff loop as the API
update, then an unconditional delete of every event_tags row of the event
followed by one insert per submitted tag id, updated_at stamped, one
commit. -/
def do_admin_event_edit (db : DB) (c : CookieAuth) (event_id : Int)
    (form : EventEditForm) (now : Nat) : Except PyErr DB :=
  match cookie_require_admin db c with
  | .error e => .error e
  | .ok user =>
    match db.events.find? (fun e => e.id == event_id) with
    | none => .error .http404
    | some event =>
      match replaceEventTags db event_id form.tag_ids with
      | .error e => .error e
      | .ok newTags =>
        .ok { db with
              events := replaceEvent db.events
                (setattrF (diffApply event_id user.id event (editUpdates form)).1
                  "updated_at" (.vTime now)),
              event_tags := newTags,
              audit := db.audit ++ (diffApply event_id user.id event (editUpdates form)).2 }

/-- POST /admin/events/new (frontend_route.py lines 457 to 520): cookie
admin gate, build the row from the same field assignments, insert one
association row per submitted tag id, commit. -/
def do_admin_event_create (db : DB) (c : CookieAuth) (form : EventEditForm)
    (now : Nat) : Except PyErr (DB × Int) :=
  match cookie_require_admin db c with
  | .error e => .error e
  | .ok _user =>
    if form.tag_ids.all (fun tid => db.tags.contains tid) then
      if form.tag_ids.Nodup then
        .ok ({ db with
               events := db.events
                 ++ [{ id := nextId db.events,
                       attrs := editUpdates form ++ [("created_at", .vTime now)] }],
               event_tags := db.event_tags
                 ++ form.tag_ids.map (fun tid => ⟨nextId db.events, tid⟩) },
             nextId db.events)
      else .error .duplicateKeyError
    else .error .referentialIntegrityError

/-- The specification-level reading of the diff loop: one audit row per
explicitly supplied field whose str form over the pre-update snapshot
differs from the str form of the incoming value, in the order the fields
are listed.  The handler lemmas below prove the imperative loop produces
exactly this. -/
def auditSpec (eid adminId : Int) (ev : EventRec) (l : List (String × PyVal)) : List AuditRec :=
  l.filterMap fun fv =>
    if pyStr (getattrD ev fv.1) ≠ pyStr fv.2 then
      some ⟨eid, adminId, fv.1, pyStr (getattrD ev fv.1), pyStr fv.2⟩
    else none

/-- Fixture: a stored event with tags 1 and 2, used across the concrete
instantiations below. -/
def evMain : EventRec :=
  { id := 1,
    attrs := [("title", .vStr "Old title"),
              ("organizer_id", .vInt 1),
              ("date_start", .vTime 100),
              ("description", .vNone),
              ("image_url", .vNone),
              ("website_url", .vNone),
              ("price", .vDec "10.00"),
              ("date_end", .vNone),
              ("registration_deadline", .vNone),
              ("city_id", .vNone),
              ("location_address", .vNone),
              ("is_online", .vBool false),
              ("created_at", .vTime 50)] }

/-- Fixture store: an admin, a plain user, three tags, one event holding
tags 1 and 2. -/
def dbMain : DB :=
  { users := [⟨1, "admin"⟩, ⟨2, "user"⟩],
    tags := [1, 2, 3],
    events := [evMain],
    event_tags := [⟨1, 1⟩, ⟨1, 2⟩],
    audit := [] }

/-- A partial update supplying price first and title second, in that
request order. -/
def payloadPriceTitle : EventUpdate :=
  { supplied := [("price", .vDec "12.50"), ("title", .vStr "New title")],
    tag_ids := none }

/-- A partial update supplying only a tag selection. -/
def payloadTags23 : EventUpdate :=
  { supplied := [], tag_ids := some [2, 3] }

/-- A partial update selecting a nonexistent tag id. -/
def payloadBadTag : EventUpdate :=
  { supplied := [], tag_ids := some [9] }

/-- A valid bearer token for the non-admin user id 2 whose embedded role
claim falsely says admin. -/
def authNonAdmin : BearerAuth := .token "2" "admin"

/-- The cookie counterpart of the same request. -/
def cookieNonAdmin : CookieAuth := .cookie (some "2") (some "admin")

/-- A valid cookie for the admin user id 1. -/
def cookieAdmin : CookieAuth := .cookie (some "1") none

/-- A minimal creation form without tags. -/
def createFormMain : EventCreateForm :=
  { title := "Fresh", organizer_id := 1, date_start := 200, price := "0.00",
    city_id := none, description := none, website_url := none,
    date_end := none, registration_deadline := none, location_address := none,
    is_online := false, tag_ids := none }

/-- An admin edit form resubmitting the stored values of evMain and, as
the browser does when no checkbox is ticked, the empty tag-id list. -/
def editFormNoTags : EventEditForm :=
  { title := "Old title", organizer_id := 1, date_start := 100,
    date_end := none, registration_deadline := none, price := "10.00",
    city_id := none, location_address := none, website_url := none,
    description := none, is_online := none, tag_ids := [] }

/-- A bare event row for the ordering fixtures. -/
def evSort (i : Int) (t : Nat) : EventRec :=
  { id := i, attrs := [("date_start", .vTime t), ("is_online", .vBool true)] }

/-- Three events in neither id nor date order. -/
def dbSort : DB :=
  { users := [⟨1, "admin"⟩], tags := [], event_tags := [], audit := [],
    events := [evSort 2 30, evSort 1 10, evSort 3 20] }

/-- An online and an offline event for the online-filter fixtures. -/
def evOnline : EventRec :=
  { id := 1, attrs := [("title", .vStr "A"), ("is_online", .vBool true), ("date_start", .vTime 10)] }

/-- The offline sibling. -/
def evOffline : EventRec :=
  { id := 2, attrs := [("title", .vStr "B"), ("is_online", .vBool false), ("date_start", .vTime 20)] }

/-- Store with one online and one offline event. -/
def dbOnline : DB :=
  { users := [], tags := [], events := [evOnline, evOffline], event_tags := [], audit := [] }

/-- Event A of the filter-composition example: city 1, online. -/
def evCityA : EventRec :=
  { id := 1, attrs := [("city_id", .vInt 1), ("is_online", .vBool true), ("date_start", .vTime 1)] }

/-- Event B: city 1, offline. -/
def evCityB : EventRec :=
  { id := 2, attrs := [("city_id", .vInt 1), ("is_online", .vBool false), ("date_start", .vTime 2)] }

/-- Event C: city 2, online. -/
def evCityC : EventRec :=
  { id := 3, attrs := [("city_id", .vInt 2), ("is_online", .vBool true), ("date_start", .vTime 3)] }

/-- Store with events A, B and C of the filter-composition example. -/
def dbABC : DB :=
  { users := [], tags := [], events := [evCityA, evCityB, evCityC], event_tags := [], audit := [] }

/-- The store after the committed price-and-title update. -/
def dbMainUpdated : DB := runTx dbMain (update_event dbMain 1 payloadPriceTitle 1 7)

/-- The store after the committed tag replacement to 2 and 3. -/
def dbMainTagged : DB := runTx dbMain (update_event dbMain 1 payloadTags23 1 7)

/-- The store after the committed browser edit that submitted no tags. -/
def dbMainEdited : DB := runTx dbMain (do_admin_event_edit dbMain cookieAdmin 1 editFormNoTags 9)

/-- The store after the committed creation. -/
def dbMainCreated7 : DB := runTxPair dbMain (create_event dbMain createFormMain 7)

/-- The admin listing of the ordering fixture. -/
def adminListSorted : List EventRec := sortByLe idDescLe dbSort.events
theorem find?_setEntry_self (l : List (String × PyVal)) (f : String) (v : PyVal) :
    (setEntry l f v).find? (fun kv => kv.1 == f) = some (f, v) := by
  induction l with
  | nil => simp [setEntry]
  | cons kv rest ih =>
    by_cases h : kv.1 = f
    · simp [setEntry, h]
    · simp [setEntry, beq_eq_false_iff_ne.mpr h, List.find?_cons, ih]

theorem getattrD_setattrF_self (e : EventRec) (f : String) (v : PyVal) :
    getattrD (setattrF e f v) f = v := by
  simp [getattrD, setattrF, find?_setEntry_self]

theorem find?_setEntry_ne (l : List (String × PyVal)) (f g : String) (v : PyVal)
    (h : g ≠ f) :
    (setEntry l f v).find? (fun kv => kv.1 == g) = l.find? (fun kv => kv.1 == g) := by
  induction l with
  | nil => simp [setEntry, beq_eq_false_iff_ne.mpr h.symm]
  | cons kv rest ih =>
    by_cases hkf : kv.1 = f
    · simp [setEntry, hkf, List.find?_cons, beq_eq_false_iff_ne.mpr h.symm]
    · by_cases hkg : kv.1 = g
      · simp [setEntry, beq_eq_false_iff_ne.mpr hkf, List.find?_cons, hkg, h, ih]
      · simp [setEntry, beq_eq_false_iff_ne.mpr hkf, List.find?_cons,
              beq_eq_false_iff_ne.mpr hkg, ih]

theorem getattrD_setattrF_ne (e : EventRec) (f g : String) (v : PyVal) (h : g ≠ f) :
    getattrD (setattrF e f v) g = getattrD e g := by
  simp [getattrD, setattrF, find?_setEntry_ne _ _ _ _ h]

theorem diffApply_fst_id (eid a : Int) (l : List (String × PyVal)) (ev : EventRec) :
    (diffApply eid a ev l).1.id = ev.id := by
  induction l generalizing ev with
  | nil => rfl
  | cons fv rest ih =>
    obtain ⟨f, v⟩ := fv
    simp only [diffApply]
    split
    · exact ih (setattrF ev f v)
    · exact ih (setattrF ev f v)

theorem auditSpec_setattr_ne (eid a : Int) (ev : EventRec) (f : String) (v : PyVal)
    (l : List (String × PyVal)) (h : ∀ fv ∈ l, fv.1 ≠ f) :
    auditSpec eid a (setattrF ev f v) l = auditSpec eid a ev l := by
  unfold auditSpec
  refine List.filterMap_congr ?_
  intro fv hm
  rw [getattrD_setattrF_ne _ _ _ _ (h fv hm)]

theorem diffApply_snd_eq_auditSpec (eid a : Int) (l : List (String × PyVal)) (ev : EventRec)
    (h : (l.map Prod.fst).Nodup) :
    (diffApply eid a ev l).2 = auditSpec eid a ev l := by
  induction l generalizing ev with
  | nil => rfl
  | cons fv rest ih =>
    obtain ⟨f, v⟩ := fv
    have hnotin : ∀ gv ∈ rest, gv.1 ≠ f := by
      intro gv hg heq
      exact (List.nodup_cons.mp (by simpa using h)).1 (heq ▸ List.mem_map_of_mem Prod.fst hg)
    have hrest : (rest.map Prod.fst).Nodup := (List.nodup_cons.mp (by simpa using h)).2
    have hih : (diffApply eid a (setattrF ev f v) rest).2 = auditSpec eid a ev rest := by
      rw [ih (setattrF ev f v) hrest, auditSpec_setattr_ne _ _ _ _ _ _ hnotin]
    simp only [diffApply, auditSpec, List.filterMap_cons]
    split
    · simpa [auditSpec] using hih
    · simpa [auditSpec] using hih

theorem model_dump_keys (p : EventUpdate) :
    (model_dump p).map Prod.fst
      = eventUpdateFields.filter (fun f => (p.supplied.find? (fun kv => kv.1 == f)).isSome) := by
  unfold model_dump
  generalize eventUpdateFields = fs
  induction fs with
  | nil => rfl
  | cons f fs ih =>
    cases hf : p.supplied.find? (fun kv => kv.1 == f) <;>
      simp [List.filterMap_cons, List.filter_cons, hf, ih]

theorem eventUpdateFields_nodup : eventUpdateFields.Nodup := by decide

theorem model_dump_keys_nodup (p : EventUpdate) : ((model_dump p).map Prod.fst).Nodup := by
  rw [model_dump_keys]
  exact List.Nodup.filter _ eventUpdateFields_nodup

theorem editUpdates_keys_nodup (form : EventEditForm) :
    ((editUpdates form).map Prod.fst).Nodup := by
  simp only [editUpdates, List.map]
  decide

theorem update_event_ok (db : DB) (eid : Int) (p : EventUpdate) (aid : Int) (now : Nat)
    (ev : EventRec) (db2 : DB)
    (hfind : db.events.find? (fun e => e.id == eid) = some ev)
    (hok : update_event db eid p aid now = .ok db2) :
    db2.events = replaceEvent db.events
        (setattrF (diffApply eid aid ev (model_dump p)).1 "updated_at" (.vTime now))
    ∧ db2.audit = db.audit ++ (diffApply eid aid ev (model_dump p)).2
    ∧ db2.users = db.users ∧ db2.tags = db.tags
    ∧ updateTagsRes db eid p = .ok db2.event_tags := by
  simp only [update_event, hfind] at hok
  split at hok
  next e heq => exact absurd hok (by simp)
  next ts heq => cases hok; exact ⟨rfl, rfl, rfl, rfl, heq⟩

theorem replaceEventTags_ok_cases (db : DB) (eid : Int) (l : List Int) (ts : List EventTagRec)
    (h : replaceEventTags db eid l = .ok ts) :
    ts = db.event_tags.filter (fun et => !(et.event_id == eid)) ++ l.map (fun tid => ⟨eid, tid⟩)
    ∧ l.all (fun tid => db.tags.contains tid) = true ∧ l.Nodup := by
  unfold replaceEventTags at h
  split at h
  next hall =>
    split at h
    next hnd => cases h; exact ⟨rfl, hall, hnd⟩
    next hnd => exact absurd h (by simp)
  next hall => exact absurd h (by simp)

theorem replaceEventTags_err (db : DB) (eid : Int) (l : List Int) (tid : Int)
    (hmem : tid ∈ l) (hnot : tid ∉ db.tags) :
    replaceEventTags db eid l = .error .referentialIntegrityError := by
  have hall : l.all (fun t => db.tags.contains t) = false := by
    apply List.all_eq_false.mpr
    exact ⟨tid, hmem, fun hc => hnot (by simpa using hc)⟩
  have hc : ¬ ((l.all fun t => db.tags.contains t) = true) := by
    intro h2
    rw [h2] at hall
    cases hall
  unfold replaceEventTags
  rw [if_neg hc]

theorem tags_filter_of_replace (db : DB) (eid : Int) (l : List Int) (ts : List EventTagRec)
    (h : replaceEventTags db eid l = .ok ts) :
    (ts.filter (fun et => et.event_id == eid)).map EventTagRec.tag_id = l
    ∧ ts.filter (fun et => !(et.event_id == eid))
        = db.event_tags.filter (fun et => !(et.event_id == eid)) := by
  obtain ⟨hts, -, -⟩ := replaceEventTags_ok_cases db eid l ts h
  subst hts
  constructor
  · rw [List.filter_append]
    have h1 : (db.event_tags.filter (fun et => !(et.event_id == eid))).filter
        (fun et => et.event_id == eid) = [] := by
      apply List.filter_eq_nil_iff.mpr
      intro a ha
      have := (List.mem_filter.mp ha).2
      simp at this
      simp [this]
    have h2 : ((l.map (fun tid => (⟨eid, tid⟩ : EventTagRec))).filter
        (fun et => et.event_id == eid)) = l.map (fun tid => ⟨eid, tid⟩) := by
      apply List.filter_eq_self.mpr
      intro a ha
      obtain ⟨tid, -, rfl⟩ := List.mem_map.mp ha
      simp
    rw [h1, h2, List.nil_append, List.map_map]
    have hcomp : (EventTagRec.tag_id ∘ fun tid =>
        ({ event_id := eid, tag_id := tid } : EventTagRec)) = id := rfl
    rw [hcomp, List.map_id]
  · rw [List.filter_append]
    have h3 : (db.event_tags.filter (fun et => !(et.event_id == eid))).filter
        (fun et => !(et.event_id == eid))
        = db.event_tags.filter (fun et => !(et.event_id == eid)) := by
      rw [List.filter_filter]
      apply List.filter_congr
      intro a ha
      simp [Bool.and_self]
    have h4 : ((l.map (fun tid => (⟨eid, tid⟩ : EventTagRec))).filter
        (fun et => !(et.event_id == eid))) = [] := by
      apply List.filter_eq_nil_iff.mpr
      intro a ha
      obtain ⟨tid, -, rfl⟩ := List.mem_map.mp ha
      simp
    rw [h3, h4, List.append_nil]

theorem replaceEvent_mem (events : List EventRec) (ev old : EventRec)
    (hold : old ∈ events) (hid : old.id = ev.id) : ev ∈ replaceEvent events ev := by
  unfold replaceEvent
  refine List.mem_map.mpr ⟨old, hold, ?_⟩
  simp [hid]

theorem replaceEvent_mem_other (events : List EventRec) (ev e : EventRec)
    (he : e ∈ replaceEvent events ev) : e = ev ∨ e ∈ events := by
  unfold replaceEvent at he
  obtain ⟨x, hx, hfx⟩ := List.mem_map.mp he
  by_cases h : x.id = ev.id
  · left
    rw [← hfx]
    simp [h]
  · right
    rw [← hfx]
    have hb : (x.id == ev.id) = false := beq_eq_false_iff_ne.mpr h
    simpa [hb] using hx

theorem require_admin_fails (db : DB) (auth : BearerAuth)
    (h : auth = .noToken ∨ auth = .invalidToken
       ∨ ∃ sub role u, auth = .token sub role
           ∧ lookupUserBySub db sub = some u ∧ u.role ≠ "admin") :
    require_admin db auth = .error .http401 ∨ require_admin db auth = .error .http403 := by
  rcases h with rfl | rfl | ⟨sub, role, u, rfl, hl, hr⟩
  · left; rfl
  · left; rfl
  · right
    simp [require_admin, get_current_user, hl, beq_eq_false_iff_ne.mpr hr]

theorem cookie_require_admin_fails (db : DB) (c : CookieAuth)
    (h : c = .noCookie ∨ c = .invalidCookie
       ∨ ∃ sub role u, c = .cookie (some sub) role
           ∧ lookupUserBySub db sub = some u ∧ u.role ≠ "admin") :
    cookie_require_admin db c = .error .http403 := by
  rcases h with rfl | rfl | ⟨sub, role, u, rfl, hl, hr⟩
  · rfl
  · rfl
  · simp [cookie_require_admin, get_current_user_cookie, hl, beq_eq_false_iff_ne.mpr hr]

theorem admin_edit_ok (db : DB) (c : CookieAuth) (eid : Int) (form : EventEditForm)
    (now : Nat) (db2 : DB) (user : UserRec) (ev : EventRec)
    (hgate : cookie_require_admin db c = .ok user)
    (hfind : db.events.find? (fun e => e.id == eid) = some ev)
    (hok : do_admin_event_edit db c eid form now = .ok db2) :
    db2.events = replaceEvent db.events
        (setattrF (diffApply eid user.id ev (editUpdates form)).1 "updated_at" (.vTime now))
    ∧ db2.audit = db.audit ++ (diffApply eid user.id ev (editUpdates form)).2
    ∧ replaceEventTags db eid form.tag_ids = .ok db2.event_tags := by
  simp only [do_admin_event_edit, hgate, hfind] at hok
  split at hok
  next e heq => exact absurd hok (by simp)
  next ts heq => cases hok; exact ⟨rfl, rfl, heq⟩

theorem create_event_ok (db : DB) (form : EventCreateForm) (now : Nat)
    (db2 : DB) (eid : Int)
    (hok : create_event db form now = .ok (db2, eid)) :
    db2.events = db.events ++ [{ id := nextId db.events, attrs := createAttrs form now }]
    ∧ eid = nextId db.events ∧ db2.audit = db.audit := by
  unfold create_event at hok
  split at hok
  next hall =>
    split at hok
    next hnd =>
      cases hok
      exact ⟨rfl, rfl, rfl⟩
    next hnd => exact absurd hok (by simp)
  next hall => exact absurd hok (by simp)

theorem admin_create_ok (db : DB) (c : CookieAuth) (form : EventEditForm) (now : Nat)
    (db2 : DB) (eid : Int) (user : UserRec)
    (hgate : cookie_require_admin db c = .ok user)
    (hok : do_admin_event_create db c form now = .ok (db2, eid)) :
    db2.events = db.events
        ++ [{ id := nextId db.events, attrs := editUpdates form ++ [("created_at", .vTime now)] }]
    ∧ eid = nextId db.events ∧ db2.audit = db.audit := by
  simp only [do_admin_event_create, hgate] at hok
  split at hok
  next hall =>
    split at hok
    next hnd =>
      cases hok
      exact ⟨rfl, rfl, rfl⟩
    next hnd => exact absurd hok (by simp)
  next hall => exact absurd hok (by simp)

theorem mem_insertLe {α : Type} (le : α → α → Bool) (x z : α) (l : List α) :
    z ∈ insertLe le x l ↔ z = x ∨ z ∈ l := by
  induction l with
  | nil => simp [insertLe]
  | cons y ys ih =>
    by_cases h : le x y
    · simp [insertLe, h, List.mem_cons]
    · simp [insertLe, h, List.mem_cons, ih]
      tauto

theorem insertLe_perm {α : Type} (le : α → α → Bool) (x : α) (l : List α) :
    (insertLe le x l).Perm (x :: l) := by
  induction l with
  | nil => exact .refl _
  | cons y ys ih =>
    by_cases h : le x y
    · simp only [insertLe, if_pos h]
      exact .refl _
    · simp only [insertLe, if_neg h]
      exact (ih.cons y).trans (List.Perm.swap x y ys)

theorem sortByLe_perm {α : Type} (le : α → α → Bool) (l : List α) :
    (sortByLe le l).Perm l := by
  induction l with
  | nil => exact .refl _
  | cons x xs ih => exact (insertLe_perm le x (sortByLe le xs)).trans (ih.cons x)

theorem pairwise_insertLe {α : Type} (le : α → α → Bool)
    (htot : ∀ a b, le a b = true ∨ le b a = true)
    (htrans : ∀ a b c, le a b = true → le b c = true → le a c = true)
    (x : α) (l : List α) (h : l.Pairwise (fun a b => le a b = true)) :
    (insertLe le x l).Pairwise (fun a b => le a b = true) := by
  induction l with
  | nil => simp [insertLe]
  | cons y ys ih =>
    obtain ⟨hy, hys⟩ := List.pairwise_cons.mp h
    by_cases hxy : le x y = true
    · simp only [insertLe, if_pos hxy]
      refine List.pairwise_cons.mpr ⟨?_, h⟩
      intro z hz
      rcases List.mem_cons.mp hz with rfl | hzys
      · exact hxy
      · exact htrans x y z hxy (hy z hzys)
    · simp only [insertLe, if_neg hxy]
      refine List.pairwise_cons.mpr ⟨?_, ih hys⟩
      intro z hz
      rcases (mem_insertLe le x z ys).mp hz with hzx | hzys
      · rw [hzx]
        rcases htot x y with ht | ht
        · exact absurd ht hxy
        · exact ht
      · exact hy z hzys

theorem pairwise_sortByLe {α : Type} (le : α → α → Bool)
    (htot : ∀ a b, le a b = true ∨ le b a = true)
    (htrans : ∀ a b c, le a b = true → le b c = true → le a c = true)
    (l : List α) : (sortByLe le l).Pairwise (fun a b => le a b = true) := by
  induction l with
  | nil => simp [sortByLe]
  | cons x xs ih => exact pairwise_insertLe le htot htrans x _ ih

theorem auditSpec_map_column (eid a : Int) (ev : EventRec) (l : List (String × PyVal)) :
    (auditSpec eid a ev l).map AuditRec.changed_column
      = (l.filter (fun fv => pyStr (getattrD ev fv.1) != pyStr fv.2)).map Prod.fst := by
  induction l with
  | nil => rfl
  | cons fv rest ih =>
    simp only [auditSpec, ne_eq, ite_not] at ih ⊢
    by_cases h : pyStr (getattrD ev fv.1) = pyStr fv.2
    · simp [List.filterMap_cons, List.filter_cons, h, bne_iff_ne, ih]
    · simp [List.filterMap_cons, List.filter_cons, h, bne_iff_ne, ih]

theorem model_dump_filter_keys (p : EventUpdate) (q : String × PyVal → Bool) :
    ((model_dump p).filter q).map Prod.fst
      = eventUpdateFields.filter (fun f =>
          match p.supplied.find? (fun kv => kv.1 == f) with
          | some kv => q (f, kv.2)
          | none => false) := by
  unfold model_dump
  generalize eventUpdateFields = fs
  induction fs with
  | nil => rfl
  | cons f fs ih =>
    cases hf : p.supplied.find? (fun kv => kv.1 == f) with
    | none => simp [List.filterMap_cons, List.filter_cons, hf, ih]
    | some kv =>
      by_cases hq : q (f, kv.2)
      · simp [List.filterMap_cons, List.filter_cons, hf, hq, ih]
      · simp [List.filterMap_cons, List.filter_cons, hf, hq, ih]

theorem page_index_ok (db : DB) (s onl o t : Option String) (l : List EventRec)
    (hok : page_index db s onl o t = .ok l) :
    ∃ oid tid, parseStrIdParam o = .ok oid ∧ parseStrIdParam t = .ok tid
      ∧ l = sortByLe dateStartLe (db.events.filter (pageIndexPred db s onl oid tid)) := by
  cases ho : parseStrIdParam o with
  | error e =>
    simp only [page_index, ho] at hok
    exact absurd hok (by simp)
  | ok oid =>
    cases ht : parseStrIdParam t with
    | error e =>
      simp only [page_index, ho, ht] at hok
      exact absurd hok (by simp)
    | ok tid =>
      simp only [page_index, ho, ht] at hok
      cases hok
      exact ⟨oid, tid, rfl, rfl, rfl⟩

theorem dateStartLe_total (a b : EventRec) :
    dateStartLe a b = true ∨ dateStartLe b a = true := by
  simp only [dateStartLe, decide_eq_true_eq]
  omega

theorem dateStartLe_trans (a b c : EventRec) :
    dateStartLe a b = true → dateStartLe b c = true → dateStartLe a c = true := by
  simp only [dateStartLe, decide_eq_true_eq]
  omega

theorem idDescLe_total (a b : EventRec) : idDescLe a b = true ∨ idDescLe b a = true := by
  simp only [idDescLe, decide_eq_true_eq]
  omega

theorem idDescLe_trans (a b c : EventRec) :
    idDescLe a b = true → idDescLe b c = true → idDescLe a c = true := by
  simp only [idDescLe, decide_eq_true_eq]
  omega

theorem update_event_endpoint_gate (db : DB) (auth : BearerAuth) (eid : Int)
    (p : EventUpdate) (now : Nat) (e : PyErr) (h : require_admin db auth = .error e) :
    update_event_endpoint db auth eid p now = .error e := by
  simp only [update_event_endpoint, h]

theorem create_event_endpoint_gate (db : DB) (auth : BearerAuth) (form : EventCreateForm)
    (now : Nat) (e : PyErr) (h : require_admin db auth = .error e) :
    create_event_endpoint db auth form now = .error e := by
  simp only [create_event_endpoint, h]

theorem delete_event_endpoint_gate (db : DB) (auth : BearerAuth) (eid : Int)
    (e : PyErr) (h : require_admin db auth = .error e) :
    delete_event_endpoint db auth eid = .error e := by
  simp only [delete_event_endpoint, h]

theorem admin_edit_gate (db : DB) (c : CookieAuth) (eid : Int) (form : EventEditForm)
    (now : Nat) (e : PyErr) (h : cookie_require_admin db c = .error e) :
    do_admin_event_edit db c eid form now = .error e := by
  simp only [do_admin_event_edit, h]

theorem admin_create_gate (db : DB) (c : CookieAuth) (form : EventEditForm)
    (now : Nat) (e : PyErr) (h : cookie_require_admin db c = .error e) :
    do_admin_event_create db c form now = .error e := by
  simp only [do_admin_event_create, h]

/-- Claim C10: admin authorization depends only on the role column stored
for the user named by the sub claim of the token or cookie, never on the
role claim embedded in it: two equally valid credentials naming the same
subject but carrying different role claims produce identical gate
outcomes on both the bearer and the cookie surface. -/
theorem role_claim_ignored (db : DB) (sub r1 r2 : String) (ro1 ro2 : Option String) :
    get_current_user db (.token sub r1) = get_current_user db (.token sub r2)
    ∧ require_admin db (.token sub r1) = require_admin db (.token sub r2)
    ∧ get_current_user_cookie db (.cookie (some sub) ro1)
        = get_current_user_cookie db (.cookie (some sub) ro2)
    ∧ cookie_require_admin db (.cookie (some sub) ro1)
        = cookie_require_admin db (.cookie (some sub) ro2) :=
  ⟨rfl, rfl, rfl, rfl⟩

/-- Claim C5, code-bug evidence: in list_events the online parameter is
declared Optional bool, so the framework hands the handler True or False,
and the handler compares that bool against the string literals true and
false; neither comparison can succeed, so the online filter is never
applied on the API surface: supplying true (or false) still returns both
the online and the offline event.  The browser page, whose parameter
stayed a string, filters exactly as the claim states. -/
theorem online_filter_dead_on_api :
    list_events dbOnline none none none (some true) none = .ok [evOnline, evOffline]
    ∧ list_events dbOnline none none none (some false) none = .ok [evOnline, evOffline]
    ∧ list_events dbOnline none none none none none = .ok [evOnline, evOffline]
    ∧ page_index dbOnline none (some "true") none none = .ok [evOnline]
    ∧ page_index dbOnline none (some "false") none none = .ok [evOffline] := by
  refine ⟨by decide, by decide, by decide, by decide, by decide⟩

/-- Claim C6, code-bug evidence: on events A (city 1, online), B (city 1,
offline), C (city 2, online), the query of the claim example, city id 1
and online true, does not return exactly A: the handler calls strip() on
the int-typed city parameter and raises AttributeError, an HTTP 500.
With no filters the listing does return all three events. -/
theorem city_filter_crashes_on_api :
    list_events dbABC none (some 1) none (some true) none = .error .attributeError
    ∧ list_events dbABC none none none none none = .ok [evCityA, evCityB, evCityC] := by
  refine ⟨by decide, by decide⟩

/-- Claim C7, counterexample: a request supplying price first and title
second produces its audit records as title first and price second, the
declaration order of the update schema, not the request supply order. -/
theorem audit_order_not_request_order :
    payloadPriceTitle.supplied.map Prod.fst = ["price", "title"]
    ∧ update_event dbMain 1 payloadPriceTitle 1 7 = .ok dbMainUpdated
    ∧ dbMainUpdated.audit.map AuditRec.changed_column = ["title", "price"]
    ∧ (["title", "price"] : List String) ≠ ["price", "title"] := by
  refine ⟨by decide, by decide, by decide, by decide⟩

/-- Claim C1: for an existing Event and any partial update payload, the
audit rows appended by update_event are exactly one row per explicitly
supplied scalar field whose stringified incoming value differs from the
stringified stored value, carrying the two stringified values; a field
omitted from the payload never yields a row, and a supplied field whose
stringified value equals the stored one never yields a row. -/
theorem update_event_audit_exact (db : DB) (eid aid : Int) (p : EventUpdate) (now : Nat)
    (ev : EventRec) (db2 : DB)
    (hfind : db.events.find? (fun e => e.id == eid) = some ev)
    (hok : update_event db eid p aid now = .ok db2) :
    db2.audit = db.audit ++ auditSpec eid aid ev (model_dump p)
    ∧ ∀ r : AuditRec, r ∈ auditSpec eid aid ev (model_dump p) ↔
        ∃ v, (r.changed_column, v) ∈ model_dump p
          ∧ pyStr (getattrD ev r.changed_column) ≠ pyStr v
          ∧ r = ⟨eid, aid, r.changed_column, pyStr (getattrD ev r.changed_column), pyStr v⟩ := by
  have hd := update_event_ok db eid p aid now ev db2 hfind hok
  have heq : db2.audit = db.audit ++ auditSpec eid aid ev (model_dump p) := by
    rw [hd.2.1, diffApply_snd_eq_auditSpec _ _ _ _ (model_dump_keys_nodup p)]
  refine ⟨heq, ?_⟩
  intro r
  constructor
  · intro hr
    obtain ⟨fv, hfv, hcond⟩ := List.mem_filterMap.mp hr
    by_cases hc : pyStr (getattrD ev fv.1) ≠ pyStr fv.2
    · rw [if_pos hc] at hcond
      cases hcond
      exact ⟨fv.2, by simpa using hfv, hc, rfl⟩
    · rw [if_neg hc] at hcond
      cases hcond
  · rintro ⟨v, hmem, hne, hr⟩
    apply List.mem_filterMap.mpr
    refine ⟨(r.changed_column, v), hmem, ?_⟩
    rw [if_pos hne]
    exact congrArg some hr.symm

theorem update_event_audit_exact_witness :
    dbMain.events.find? (fun e => e.id == 1) = some evMain
    ∧ update_event dbMain 1 payloadPriceTitle 1 7 = .ok dbMainUpdated
    ∧ dbMainUpdated.audit = dbMain.audit ++ auditSpec 1 1 evMain (model_dump payloadPriceTitle)
    ∧ auditSpec 1 1 evMain (model_dump payloadPriceTitle)
        = [⟨1, 1, "title", "Old title", "New title"⟩, ⟨1, 1, "price", "10.00", "12.50"⟩] := by
  refine ⟨by decide, by decide, ?_, by decide⟩
  exact (update_event_audit_exact dbMain 1 1 payloadPriceTitle 7 evMain dbMainUpdated
    (by decide) (by decide)).1

/-- Claim C2: when an update explicitly supplies a tag selection and the
update commits, the association set of the event becomes exactly the
supplied ids while other events keep their rows; when any supplied id
names no existing Tag, the handler fails with the referential-integrity
error and the committed state is the untouched pre-attempt store, fields
and audit trail included; when tag_ids is omitted the association rows
are left exactly as they were. -/
theorem update_event_tag_replacement (db : DB) (eid aid : Int) (p : EventUpdate)
    (now : Nat) (ev : EventRec)
    (hfind : db.events.find? (fun e => e.id == eid) = some ev) :
    (∀ l db2, p.tag_ids = some l →
        update_event db eid p aid now = .ok db2 →
        (db2.event_tags.filter (fun et => et.event_id == eid)).map EventTagRec.tag_id = l
        ∧ db2.event_tags.filter (fun et => !(et.event_id == eid))
            = db.event_tags.filter (fun et => !(et.event_id == eid)))
    ∧ (∀ l tid, p.tag_ids = some l → tid ∈ l → tid ∉ db.tags →
        update_event db eid p aid now = .error .referentialIntegrityError
        ∧ runTx db (update_event db eid p aid now) = db)
    ∧ (∀ db2, p.tag_ids = none → update_event db eid p aid now = .ok db2 →
        db2.event_tags = db.event_tags) := by
  refine ⟨?_, ?_, ?_⟩
  · intro l db2 hti hok
    have hd := update_event_ok db eid p aid now ev db2 hfind hok
    have hts : replaceEventTags db eid l = .ok db2.event_tags := by
      have h2 := hd.2.2.2.2
      simpa only [updateTagsRes, hti] using h2
    exact tags_filter_of_replace db eid l db2.event_tags hts
  · intro l tid hti hmem hnot
    have hrt := replaceEventTags_err db eid l tid hmem hnot
    have htr : updateTagsRes db eid p = .error .referentialIntegrityError := by
      simp only [updateTagsRes, hti, hrt]
    have herr : update_event db eid p aid now = .error .referentialIntegrityError := by
      simp only [update_event, hfind, htr]
    exact ⟨herr, by rw [herr]; rfl⟩
  · intro db2 hti hok
    have hd := update_event_ok db eid p aid now ev db2 hfind hok
    have h2 := hd.2.2.2.2
    simp only [updateTagsRes, hti] at h2
    injection h2 with h3
    exact h3.symm

theorem update_event_tag_replacement_witness :
    dbMain.events.find? (fun e => e.id == 1) = some evMain
    ∧ payloadTags23.tag_ids = some [2, 3]
    ∧ dbMain.event_tags.filter (fun et => et.event_id == 1) = [⟨1, 1⟩, ⟨1, 2⟩]
    ∧ update_event dbMain 1 payloadTags23 1 7 = .ok dbMainTagged
    ∧ (dbMainTagged.event_tags.filter (fun et => et.event_id == 1)).map EventTagRec.tag_id
        = [2, 3]
    ∧ payloadBadTag.tag_ids = some [9] ∧ (9 : Int) ∉ dbMain.tags
    ∧ update_event dbMain 1 payloadBadTag 1 7 = .error .referentialIntegrityError
    ∧ runTx dbMain (update_event dbMain 1 payloadBadTag 1 7) = dbMain := by
  have hrepl := ((update_event_tag_replacement dbMain 1 1 payloadTags23 7 evMain
    (by decide)).1 [2, 3] dbMainTagged (by decide) (by decide)).1
  have herr := (update_event_tag_replacement dbMain 1 1 payloadBadTag 7 evMain
    (by decide)).2.1 [9] 9 (by decide) (by decide) (by decide)
  exact ⟨by decide, by decide, by decide, by decide, hrepl, by decide, by decide,
    herr.1, herr.2⟩

/-- Claim C3: a request against any of the admin-only mutation endpoints
that carries no credentials, invalid credentials, or valid credentials
naming a user whose stored role is not admin, fails with the
authentication or authorization error raised by the gate dependency
before the handler body runs, and the committed store is exactly the
pre-attempt store. -/
theorem admin_gate_fail_closed (db : DB) (auth : BearerAuth) (c : CookieAuth)
    (eid : Int) (p : EventUpdate) (cform : EventCreateForm) (eform : EventEditForm)
    (now : Nat)
    (hb : auth = .noToken ∨ auth = .invalidToken
       ∨ ∃ sub role u, auth = .token sub role
           ∧ lookupUserBySub db sub = some u ∧ u.role ≠ "admin")
    (hc : c = .noCookie ∨ c = .invalidCookie
       ∨ ∃ sub role u, c = .cookie (some sub) role
           ∧ lookupUserBySub db sub = some u ∧ u.role ≠ "admin") :
    ((update_event_endpoint db auth eid p now = .error .http401
      ∨ update_event_endpoint db auth eid p now = .error .http403)
     ∧ runTx db (update_event_endpoint db auth eid p now) = db)
    ∧ ((create_event_endpoint db auth cform now = .error .http401
        ∨ create_event_endpoint db auth cform now = .error .http403)
       ∧ runTxPair db (create_event_endpoint db auth cform now) = db)
    ∧ ((delete_event_endpoint db auth eid = .error .http401
        ∨ delete_event_endpoint db auth eid = .error .http403)
       ∧ runTx db (delete_event_endpoint db auth eid) = db)
    ∧ (do_admin_event_edit db c eid eform now = .error .http403
       ∧ runTx db (do_admin_event_edit db c eid eform now) = db)
    ∧ (do_admin_event_create db c eform now = .error .http403
       ∧ runTxPair db (do_admin_event_create db c eform now) = db) := by
  have hra := require_admin_fails db auth hb
  have hcra := cookie_require_admin_fails db c hc
  have hupd : update_event_endpoint db auth eid p now = .error .http401
      ∨ update_event_endpoint db auth eid p now = .error .http403 := by
    rcases hra with h | h
    · exact .inl (update_event_endpoint_gate db auth eid p now _ h)
    · exact .inr (update_event_endpoint_gate db auth eid p now _ h)
  have hcre : create_event_endpoint db auth cform now = .error .http401
      ∨ create_event_endpoint db auth cform now = .error .http403 := by
    rcases hra with h | h
    · exact .inl (create_event_endpoint_gate db auth cform now _ h)
    · exact .inr (create_event_endpoint_gate db auth cform now _ h)
  have hdel : delete_event_endpoint db auth eid = .error .http401
      ∨ delete_event_endpoint db auth eid = .error .http403 := by
    rcases hra with h | h
    · exact .inl (delete_event_endpoint_gate db auth eid _ h)
    · exact .inr (delete_event_endpoint_gate db auth eid _ h)
  have hedit := admin_edit_gate db c eid eform now _ hcra
  have hcrf := admin_create_gate db c eform now _ hcra
  refine ⟨⟨hupd, ?_⟩, ⟨hcre, ?_⟩, ⟨hdel, ?_⟩, ⟨hedit, by rw [hedit]; rfl⟩,
    ⟨hcrf, by rw [hcrf]; rfl⟩⟩
  · rcases hupd with h | h <;> rw [h] <;> rfl
  · rcases hcre with h | h <;> rw [h] <;> rfl
  · rcases hdel with h | h <;> rw [h] <;> rfl

theorem admin_gate_fail_closed_witness :
    lookupUserBySub dbMain "2" = some ⟨2, "user"⟩
    ∧ (⟨2, "user"⟩ : UserRec).role ≠ "admin"
    ∧ (update_event_endpoint dbMain authNonAdmin 1 payloadPriceTitle 7 = .error .http401
       ∨ update_event_endpoint dbMain authNonAdmin 1 payloadPriceTitle 7 = .error .http403)
    ∧ runTx dbMain (update_event_endpoint dbMain authNonAdmin 1 payloadPriceTitle 7) = dbMain
    ∧ do_admin_event_edit dbMain cookieNonAdmin 1 editFormNoTags 9 = .error .http403
    ∧ runTx dbMain (do_admin_event_edit dbMain cookieNonAdmin 1 editFormNoTags 9) = dbMain := by
  have h := admin_gate_fail_closed dbMain authNonAdmin cookieNonAdmin 1 payloadPriceTitle
    createFormMain editFormNoTags 7
    (Or.inr (Or.inr ⟨"2", "admin", ⟨2, "user"⟩, rfl, by decide, by decide⟩))
    (Or.inr (Or.inr ⟨"2", some "admin", ⟨2, "user"⟩, rfl, by decide, by decide⟩))
  exact ⟨by decide, by decide, h.1.1, h.1.2, h.2.2.2.1.1, h.2.2.2.1.2⟩

/-- Claim C4: an Event has no updated_at value right after either create
handler commits; a committed update through either update handler sets
the updated_at of exactly the target event to the commit-time clock,
leaving every other event row as it was; deletion introduces no mutated
rows.  Together with the absence of any other event mutation in the
routers, updated_at is assigned exactly by the update operations. -/
theorem updated_at_lifecycle (db : DB) (cform : EventCreateForm) (eform : EventEditForm)
    (c : CookieAuth) (p : EventUpdate) (eid aid : Int) (now : Nat) :
    (∀ db2 nid, create_event db cform now = .ok (db2, nid) →
        ∃ ev, db2.events = db.events ++ [ev] ∧ ev.id = nid
          ∧ getattrD ev "updated_at" = .vNone)
    ∧ (∀ user db2 nid, cookie_require_admin db c = .ok user →
        do_admin_event_create db c eform now = .ok (db2, nid) →
        ∃ ev, db2.events = db.events ++ [ev] ∧ ev.id = nid
          ∧ getattrD ev "updated_at" = .vNone)
    ∧ (∀ ev db2, db.events.find? (fun e => e.id == eid) = some ev →
        update_event db eid p aid now = .ok db2 →
        (∃ ev2 ∈ db2.events, ev2.id = eid ∧ getattrD ev2 "updated_at" = .vTime now)
        ∧ ∀ e ∈ db2.events, e.id ≠ eid → e ∈ db.events)
    ∧ (∀ user ev db2, cookie_require_admin db c = .ok user →
        db.events.find? (fun e => e.id == eid) = some ev →
        do_admin_event_edit db c eid eform now = .ok db2 →
        ∃ ev2 ∈ db2.events, ev2.id = eid ∧ getattrD ev2 "updated_at" = .vTime now)
    ∧ (∀ db2, delete_event db eid = .ok db2 → ∀ e ∈ db2.events, e ∈ db.events) := by
  refine ⟨?_, ?_, ?_, ?_, ?_⟩
  · intro db2 nid hok
    have hd := create_event_ok db cform now db2 nid hok
    exact ⟨_, hd.1, hd.2.1.symm, rfl⟩
  · intro user db2 nid hgate hok
    have hd := admin_create_ok db c eform now db2 nid user hgate hok
    exact ⟨_, hd.1, hd.2.1.symm, rfl⟩
  · intro ev db2 hfind hok
    have hd := update_event_ok db eid p aid now ev db2 hfind hok
    have hev : ev ∈ db.events := List.mem_of_find?_eq_some hfind
    have hevid : ev.id = eid := by
      have := List.find?_some hfind
      simpa using this
    have hid2 : (setattrF (diffApply eid aid ev (model_dump p)).1 "updated_at"
        (.vTime now)).id = ev.id := diffApply_fst_id eid aid (model_dump p) ev
    constructor
    · refine ⟨setattrF (diffApply eid aid ev (model_dump p)).1 "updated_at" (.vTime now),
        ?_, hid2.trans hevid, getattrD_setattrF_self _ _ _⟩
      rw [hd.1]
      exact replaceEvent_mem db.events _ ev hev hid2.symm
    · intro e he hne
      rw [hd.1] at he
      rcases replaceEvent_mem_other _ _ _ he with he2 | hmem
      · exact absurd (by rw [he2]; exact hid2.trans hevid) hne
      · exact hmem
  · intro user ev db2 hgate hfind hok
    have hd := admin_edit_ok db c eid eform now db2 user ev hgate hfind hok
    have hev : ev ∈ db.events := List.mem_of_find?_eq_some hfind
    have hevid : ev.id = eid := by
      have := List.find?_some hfind
      simpa using this
    have hid2 : (setattrF (diffApply eid user.id ev (editUpdates eform)).1 "updated_at"
        (.vTime now)).id = ev.id := diffApply_fst_id eid user.id (editUpdates eform) ev
    refine ⟨setattrF (diffApply eid user.id ev (editUpdates eform)).1 "updated_at" (.vTime now),
      ?_, hid2.trans hevid, getattrD_setattrF_self _ _ _⟩
    rw [hd.1]
    exact replaceEvent_mem db.events _ ev hev hid2.symm
  · intro db2 hok e he
    unfold delete_event at hok
    split at hok
    next => exact absurd hok (by simp)
    next =>
      cases hok
      exact (List.mem_filter.mp he).1

theorem updated_at_lifecycle_witness :
    dbMain.events.find? (fun e => e.id == 1) = some evMain
    ∧ update_event dbMain 1 payloadPriceTitle 1 7 = .ok dbMainUpdated
    ∧ (∃ ev2 ∈ dbMainUpdated.events, ev2.id = 1 ∧ getattrD ev2 "updated_at" = .vTime 7)
    ∧ create_event dbMain createFormMain 7 = .ok (dbMainCreated7, 2)
    ∧ (∃ ev, dbMainCreated7.events = dbMain.events ++ [ev] ∧ ev.id = 2
        ∧ getattrD ev "updated_at" = .vNone) := by
  have h := updated_at_lifecycle dbMain createFormMain editFormNoTags cookieAdmin
    payloadPriceTitle 1 1 7
  refine ⟨by decide, by decide, ?_, by decide, ?_⟩
  · exact (h.2.2.1 evMain dbMainUpdated (by decide) (by decide)).1
  · exact h.1 dbMainCreated7 2 (by decide)

/-- Claim C7, amended: the audit records of one committed update are
ordered by the declaration order of the EventUpdate schema fields (title,
description, city_id, website_url, price, date_start, date_end,
registration_deadline, location_address, is_online) restricted to the
supplied-and-changed fields, a subsequence of that declaration order; the
order the request supplied the fields in has no effect on the output
order. -/
theorem update_event_audit_schema_order (db : DB) (eid aid : Int) (p : EventUpdate)
    (now : Nat) (ev : EventRec) (db2 : DB)
    (hfind : db.events.find? (fun e => e.id == eid) = some ev)
    (hok : update_event db eid p aid now = .ok db2) :
    (db2.audit.drop db.audit.length).map AuditRec.changed_column
      = eventUpdateFields.filter (fun f =>
          match p.supplied.find? (fun kv => kv.1 == f) with
          | some kv => pyStr (getattrD ev f) != pyStr kv.2
          | none => false)
    ∧ ((db2.audit.drop db.audit.length).map AuditRec.changed_column).Sublist
        eventUpdateFields := by
  have hd := update_event_ok db eid p aid now ev db2 hfind hok
  have haudit : db2.audit = db.audit ++ auditSpec eid aid ev (model_dump p) := by
    rw [hd.2.1, diffApply_snd_eq_auditSpec _ _ _ _ (model_dump_keys_nodup p)]
  have hdrop : db2.audit.drop db.audit.length = auditSpec eid aid ev (model_dump p) := by
    rw [haudit, List.drop_left]
  have hmain : (auditSpec eid aid ev (model_dump p)).map AuditRec.changed_column
      = eventUpdateFields.filter (fun f =>
          match p.supplied.find? (fun kv => kv.1 == f) with
          | some kv => pyStr (getattrD ev f) != pyStr kv.2
          | none => false) := by
    rw [auditSpec_map_column]
    exact model_dump_filter_keys p (fun fv => pyStr (getattrD ev fv.1) != pyStr fv.2)
  constructor
  · rw [hdrop]
    exact hmain
  · rw [hdrop, hmain]
    exact List.filter_sublist _

theorem update_event_audit_schema_order_witness :
    dbMain.events.find? (fun e => e.id == 1) = some evMain
    ∧ update_event dbMain 1 payloadPriceTitle 1 7 = .ok dbMainUpdated
    ∧ (dbMainUpdated.audit.drop dbMain.audit.length).map AuditRec.changed_column
        = eventUpdateFields.filter (fun f =>
            match payloadPriceTitle.supplied.find? (fun kv => kv.1 == f) with
            | some kv => pyStr (getattrD evMain f) != pyStr kv.2
            | none => false) := by
  exact ⟨by decide, by decide,
    (update_event_audit_schema_order dbMain 1 1 payloadPriceTitle 7 evMain dbMainUpdated
      (by decide) (by decide)).1⟩

/-- Claim C8: the public index page returns the filtered events as a
permutation sorted ascending by start timestamp, and the administrative
events page returns all events as a permutation sorted descending by
identifier, newest-created first. -/
theorem listing_orderings (db : DB) (c : CookieAuth) (s onl o t : Option String) :
    (∀ l, page_index db s onl o t = .ok l →
        l.Pairwise (fun a b => dateStartKey a ≤ dateStartKey b)
        ∧ ∃ oid tid, parseStrIdParam o = .ok oid ∧ parseStrIdParam t = .ok tid
            ∧ l.Perm (db.events.filter (pageIndexPred db s onl oid tid)))
    ∧ (∀ u l, cookie_require_admin db c = .ok u → page_admin_events db c = .ok l →
        l.Pairwise (fun a b => b.id ≤ a.id) ∧ l.Perm db.events) := by
  constructor
  · intro l hok
    obtain ⟨oid, tid, ho, ht, rfl⟩ := page_index_ok db s onl o t l hok
    constructor
    · have hp := pairwise_sortByLe dateStartLe dateStartLe_total dateStartLe_trans
        (db.events.filter (pageIndexPred db s onl oid tid))
      exact hp.imp (fun h => by simpa [dateStartLe] using h)
    · exact ⟨oid, tid, ho, ht, sortByLe_perm _ _⟩
  · intro u l hgate hok
    simp only [page_admin_events, hgate] at hok
    cases hok
    constructor
    · have hp := pairwise_sortByLe idDescLe idDescLe_total idDescLe_trans db.events
      exact hp.imp (fun h => by simpa [idDescLe] using h)
    · exact sortByLe_perm _ _

theorem listing_orderings_witness :
    cookie_require_admin dbSort cookieAdmin = .ok ⟨1, "admin"⟩
    ∧ page_admin_events dbSort cookieAdmin = .ok adminListSorted
    ∧ adminListSorted = [evSort 3 20, evSort 2 30, evSort 1 10]
    ∧ adminListSorted.Pairwise (fun a b => b.id ≤ a.id)
    ∧ adminListSorted.Perm dbSort.events := by
  have h := (listing_orderings dbSort cookieAdmin none none none none).2 ⟨1, "admin"⟩
    adminListSorted (by decide) (by decide)
  exact ⟨by decide, by decide, by decide, h.1, h.2⟩

/-- Claim C9: a committed browser edit unconditionally replaces the full
association set of the event by exactly the tag ids submitted in the
form, leaving other events untouched; since the form field defaults to
the empty list, a submission without tag ids removes every existing
association of the event, so omission does not leave associations
untouched on this surface. -/
theorem admin_edit_tags_unconditional (db : DB) (c : CookieAuth) (eid : Int)
    (form : EventEditForm) (now : Nat) (user : UserRec) (ev : EventRec) (db2 : DB)
    (hgate : cookie_require_admin db c = .ok user)
    (hfind : db.events.find? (fun e => e.id == eid) = some ev)
    (hok : do_admin_event_edit db c eid form now = .ok db2) :
    (db2.event_tags.filter (fun et => et.event_id == eid)).map EventTagRec.tag_id
      = form.tag_ids
    ∧ db2.event_tags.filter (fun et => !(et.event_id == eid))
        = db.event_tags.filter (fun et => !(et.event_id == eid)) := by
  obtain ⟨-, -, hts⟩ := admin_edit_ok db c eid form now db2 user ev hgate hfind hok
  exact tags_filter_of_replace db eid form.tag_ids db2.event_tags hts

theorem admin_edit_tags_unconditional_witness :
    cookie_require_admin dbMain cookieAdmin = .ok ⟨1, "admin"⟩
    ∧ dbMain.events.find? (fun e => e.id == 1) = some evMain
    ∧ editFormNoTags.tag_ids = []
    ∧ dbMain.event_tags.filter (fun et => et.event_id == 1) = [⟨1, 1⟩, ⟨1, 2⟩]
    ∧ do_admin_event_edit dbMain cookieAdmin 1 editFormNoTags 9 = .ok dbMainEdited
    ∧ (dbMainEdited.event_tags.filter (fun et => et.event_id == 1)).map EventTagRec.tag_id
        = [] := by
  have h := admin_edit_tags_unconditional dbMain cookieAdmin 1 editFormNoTags 9
    ⟨1, "admin"⟩ evMain dbMainEdited (by decide) (by decide) (by decide)
  exact ⟨by decide, by decide, by decide, by decide, by decide, h.1⟩
